import Mathlib

/-!
Shallow embedding of the section-management subsystem of steve/sections.py
(arnavm/fluidics-control).

Modelling conventions:
- Python floats are modelled as rationals (exact arithmetic stands in for
  IEEE doubles; the string round trip of a float is exact at this level).
- numpy pixel buffers are flat lists of rationals; the final astype(uint8)
  and QImage wrapping of the averaged background are presentation steps not
  modelled, so the stored background pixmap is the averaged rational buffer.
- Qt objects are reduced to the fields the embedded code reads or writes:
  a Section keeps its number, the three spin-box values of its controls row
  (x, y in micrometers, angle in degrees), the selected highlight of the row
  and the background check box.
- Operations that can raise a Python exception (attribute access on the
  False active_section, list indexing out of range, a zero modulus) return
  Option, with none standing for the raised exception.
-/

/-- A rendered pixel buffer (a numpy array, flattened), one rational per sample. -/
abbrev Frame := List ℚ

/-- State of one Section widget and its SectionControls row. -/
structure SectionData where
  section_number : Nat
  x_pos : ℚ
  y_pos : ℚ
  angle : ℚ
  selected : Bool
  checked : Bool
deriving DecidableEq

/-- State of the Sections orchestrator together with the two pixmaps held by
its SectionsView.  active_section is the position in the sections list of the
Section object referenced by self.active_section (none models False). -/
structure SectionsState where
  sections : List SectionData
  active_section : Option Nat
  background_pixmap : Option Frame
  foreground_pixmap : Option Frame
deriving DecidableEq

/-- The SectionRenderer capability, as a function of the requested center
point (x, y in micrometers) and angle.  renderSectionNumpy returns False when
image.bits() is None (modelled none); renderSectionPixmap (grabWidget) always
yields a pixmap.  The fixed scene, scale and output size are absorbed into
the environment. -/
structure RenderEnv where
  renderNumpy : ℚ → ℚ → ℚ → Option Frame
  renderPixmap : ℚ → ℚ → ℚ → Frame

/-- QDoubleSpinBox.setValue: Qt clamps the stored value into
[minimum, maximum] (qBound). -/
def SectionSpinBox.setValue (lo hi v : ℚ) : ℚ := max lo (min v hi)

/-- SectionControls.incrementAngle: angle_step is 1.0, the angle spin box has
minimum -180 and maximum 180.  The argument is the current spin-box value. -/
def SectionControls.incrementAngle (angle : ℚ) (direction : Int) : ℚ :=
  if 0 < direction then
    let cur := angle + 1
    if 180 < cur then
      SectionSpinBox.setValue (-180) 180 (-180 + (cur - 180))
    else
      SectionSpinBox.setValue (-180) 180 cur
  else
    let cur := angle - 1
    if cur < -180 then
      SectionSpinBox.setValue (-180) 180 (180 - (-180 - cur))
    else
      SectionSpinBox.setValue (-180) 180 cur

/-- elementwise numpy addition of two buffers of equal shape. -/
def addFrame (a b : Frame) : Frame := List.zipWith (fun p q => p + q) a b

/-- Sections.handleActiveSectionUpdate(which_section).  Deselects the current
active section when a different one is requested, then makes
self.sections[which_section] the active (selected) one.  none models the
IndexError on an out-of-range list index. -/
def Sections.handleActiveSectionUpdate (st : SectionsState) (which : Nat) :
    Option SectionsState :=
  match st.active_section with
  | some pos =>
    match st.sections.get? pos with
    | none => none
    | some activeSec =>
      if activeSec.section_number ≠ which then
        let sections1 := st.sections.set pos { activeSec with selected := false }
        match sections1.get? which with
        | none => none
        | some newSec =>
          some { st with
                  sections := sections1.set which { newSec with selected := true },
                  active_section := some which }
      else
        some st
  | none =>
    match st.sections.get? which with
    | none => none
    | some newSec =>
      some { st with
              sections := st.sections.set which { newSec with selected := true },
              active_section := some which }

/-- Sections.addSection(a_point, angle): appends a Section numbered
len(self.sections), then, if no section was active, activates section 0.
The new controls row starts unselected with an unchecked box. -/
def Sections.addSection (st : SectionsState) (x y angle : ℚ) :
    Option SectionsState :=
  let sec : SectionData :=
    { section_number := st.sections.length, x_pos := x, y_pos := y,
      angle := angle, selected := false, checked := false }
  let st1 := { st with sections := st.sections ++ [sec] }
  match st1.active_section with
  | some _ => some st1
  | none => Sections.handleActiveSectionUpdate st1 0

/-- Sections.incrementActiveSection(diff): no-op without an active section;
otherwise moves to (number + diff) % len(self.sections) (Python modulo, i.e.
Int.emod).  none models the ZeroDivisionError on an empty list. -/
def Sections.incrementActiveSection (st : SectionsState) (diff : Int) :
    Option SectionsState :=
  match st.active_section with
  | none => some st
  | some pos =>
    match st.sections.get? pos with
    | none => none
    | some sec =>
      if st.sections.length = 0 then none
      else
        Sections.handleActiveSectionUpdate st
          (((sec.section_number : Int) + diff) % (st.sections.length : Int)).toNat

/-- the renumbering loop of removeActiveSection:
for i, a_section in enumerate(self.sections): a_section.setSectionNumber(i). -/
def renumber : List SectionData → Nat → List SectionData
  | [], _ => []
  | s :: rest, i => { s with section_number := i } :: renumber rest (i + 1)

/-- Sections.removeActiveSection: deletes self.sections[which] where which is
the active section's number, renumbers the remainder 0..count-1, then
reactivates which-1 (when which > 0) or 0 (when sections remain).  none
models the AttributeError when active_section is False and the IndexError of
del on an out-of-range index. -/
def Sections.removeActiveSection (st : SectionsState) : Option SectionsState :=
  match st.active_section with
  | none => none
  | some pos =>
    match st.sections.get? pos with
    | none => none
    | some activeSec =>
      let which := activeSec.section_number
      if which < st.sections.length then
        let remaining := renumber (st.sections.eraseIdx which) 0
        let st1 := { st with sections := remaining, active_section := none }
        if 0 < remaining.length then
          if 0 < which then
            Sections.handleActiveSectionUpdate st1 (which - 1)
          else
            Sections.handleActiveSectionUpdate st1 0
        else
          some st1
      else
        none

/-- One iteration of the updateBackgroundPixmap loop on the accumulator
(numpy_background, counts): skip unchecked sections; when numpy_background is
already an array the code runs numpy_background += temp without testing temp,
so a False temp adds zero elementwise while counts still grows; before the
first successful render a False temp is merely logged. -/
def Sections.bgStep (env : RenderEnv) (acc : Option Frame × ℚ)
    (sec : SectionData) : Option Frame × ℚ :=
  if sec.checked then
    let temp := env.renderNumpy sec.x_pos sec.y_pos sec.angle
    match acc.1 with
    | some bg =>
      (some (match temp with
             | some t => addFrame bg t
             | none => bg),
       acc.2 + 1)
    | none =>
      match temp with
      | some t => (some t, acc.2 + 1)
      | none => acc
  else acc

/-- Sections.updateBackgroundPixmap: early return on an empty collection;
otherwise folds bgStep over the sections in order, starting from
(False, 0.0).  The final array is divided by counts and stored (its
astype(uint8)/QImage wrapping is presentation, not modelled); a False result
clears the view's pixmap. -/
def Sections.updateBackgroundPixmap (env : RenderEnv) (st : SectionsState) :
    SectionsState :=
  if st.sections.length = 0 then st
  else
    let result := st.sections.foldl (Sections.bgStep env) (none, 0)
    match result.1 with
    | some bg =>
      { st with background_pixmap := some (bg.map (fun p => p / result.2)) }
    | none => { st with background_pixmap := none }

/-- Sections.updateForegroundPixmap: renders the active section; no-op when
there is none. -/
def Sections.updateForegroundPixmap (env : RenderEnv) (st : SectionsState) :
    SectionsState :=
  match st.active_section with
  | none => st
  | some pos =>
    match st.sections.get? pos with
    | none => st
    | some sec =>
      { st with
          foreground_pixmap := some (env.renderPixmap sec.x_pos sec.y_pos sec.angle) }

/-- Sections.viewUpdate: background then foreground refresh. -/
def Sections.viewUpdate (env : RenderEnv) (st : SectionsState) : SectionsState :=
  Sections.updateForegroundPixmap env (Sections.updateBackgroundPixmap env st)

/-- Sections.handleSectionUpdate: reads self.active_section.isChecked()
(AttributeError when active_section is False, modelled none); recomputes the
background composite when the active section is checked, and always the
foreground. -/
def Sections.handleSectionUpdate (env : RenderEnv) (st : SectionsState) :
    Option SectionsState :=
  match st.active_section with
  | none => none
  | some pos =>
    match st.sections.get? pos with
    | none => none
    | some sec =>
      let st1 := if sec.checked then Sections.updateBackgroundPixmap env st else st
      some (Sections.updateForegroundPixmap env st1)

/-- An edit of one spin-box value of the active section
(self.active_section.incrementX/Y/Angle): AttributeError (none) when
active_section is False; otherwise the value is updated and, when it actually
changed, Qt's valueChanged signal runs the synchronous chain
handleValueChange -> handleSectionChanged -> Sections.handleSectionUpdate. -/
def Sections.activeEdit (env : RenderEnv) (st : SectionsState)
    (f : SectionData → SectionData) : Option SectionsState :=
  match st.active_section with
  | none => none
  | some pos =>
    match st.sections.get? pos with
    | none => none
    | some sec =>
      let sec1 := f sec
      if sec1 = sec then some st
      else
        Sections.handleSectionUpdate env
          { st with sections := st.sections.set pos sec1 }

/-- The key codes Sections.handleKeyEvent dispatches on. -/
inductive Key where
  | up | down | w | s | a | d | q | e | p | del | u | other
deriving DecidableEq

/-- Sections.handleKeyEvent.  Up/Down move the active cursor; W/S/A/D nudge
y/x of the active section by -0.5/0.5; Q/E nudge its angle; P dumps per
section numpy arrays (state unchanged); Delete removes the active section
only when one exists; U forces viewUpdate; other keys fall through. -/
def Sections.handleKeyEvent (env : RenderEnv) (st : SectionsState) (k : Key) :
    Option SectionsState :=
  match k with
  | Key.up => Sections.incrementActiveSection st (-1)
  | Key.down => Sections.incrementActiveSection st 1
  | Key.w => Sections.activeEdit env st (fun sec =>
      { sec with y_pos := SectionSpinBox.setValue (-1000000) 1000000 (sec.y_pos + (-(1/2))) })
  | Key.s => Sections.activeEdit env st (fun sec =>
      { sec with y_pos := SectionSpinBox.setValue (-1000000) 1000000 (sec.y_pos + 1/2) })
  | Key.a => Sections.activeEdit env st (fun sec =>
      { sec with x_pos := SectionSpinBox.setValue (-1000000) 1000000 (sec.x_pos + (-(1/2))) })
  | Key.d => Sections.activeEdit env st (fun sec =>
      { sec with x_pos := SectionSpinBox.setValue (-1000000) 1000000 (sec.x_pos + 1/2) })
  | Key.q => Sections.activeEdit env st (fun sec =>
      { sec with angle := SectionControls.incrementAngle sec.angle (-1) })
  | Key.e => Sections.activeEdit env st (fun sec =>
      { sec with angle := SectionControls.incrementAngle sec.angle 1 })
  | Key.p => some st
  | Key.del =>
    match st.active_section with
    | some _ => Sections.removeActiveSection st
    | none => some st
  | Key.u => some (Sections.viewUpdate env st)
  | Key.other => some st

/-- One comma-separated token of a mosaic file line: either a non-numeric tag
such as "section", or the str() of a float (str of a float never contains a
comma and never reads back as a tag, so the comma-split of a written line is
faithfully a list of these tokens). -/
inductive MosaicField where
  | tag : String → MosaicField
  | num : ℚ → MosaicField
deriving DecidableEq

/-- Section.saveToMosaicFile: the comma-split fields of the written CRLF
terminated line "section," + ",".join(map(str, [number, x_um, y_um, angle]))
+ "\r\n".  The location's getUm() returns the two position spin-box values. -/
def Section.saveToMosaicFileFields (s : SectionData) : List MosaicField :=
  [MosaicField.tag "section", MosaicField.num (s.section_number : ℚ),
   MosaicField.num s.x_pos, MosaicField.num s.y_pos, MosaicField.num s.angle]

/-- Modelled from the spec: the serializeLine contract of spec section 4.1,
"produces section,<x_um>,<y_um>,<angle> terminated by CRLF", i.e. the tag
followed by exactly three numeric fields.  For comparison with the source's
Section.saveToMosaicFileFields. -/
def Section.serializeLineSpec (s : SectionData) : List MosaicField :=
  [MosaicField.tag "section", MosaicField.num s.x_pos, MosaicField.num s.y_pos,
   MosaicField.num s.angle]

/-- Sections.loadFromMosaicFileData(data, directory): recognizes a line whose
first field is "section" and adds a section from float(data[2]),
float(data[3]), float(data[4]).  none models IndexError on a missing field
and ValueError when float() is applied to a non-numeric tag. -/
def Sections.loadFromMosaicFileData (st : SectionsState)
    (data : List MosaicField) : Option (Bool × SectionsState) :=
  match data.get? 0 with
  | none => none
  | some f0 =>
    if f0 = MosaicField.tag "section" then
      match data.get? 2, data.get? 3, data.get? 4 with
      | some (MosaicField.num x), some (MosaicField.num y),
        some (MosaicField.num a) =>
        (Sections.addSection st x y a).map (fun st1 => (true, st1))
      | _, _, _ => none
    else
      some (false, st)

/-- Modelled from the spec: the background composite contract of spec
section 4.6, "composite = pixel-wise mean over renders of every
background_enabled section", restricted to the renders that succeeded. -/
def specMean (frames : List Frame) : Option Frame :=
  match frames with
  | [] => none
  | f :: rest =>
    some ((rest.foldl addFrame f).map (fun p => p / ((frames.length : ℚ))))

/-- The state right after Sections.__init__ (and the SectionsView with no
pixmaps): no sections, active_section False. -/
def Sections.initState : SectionsState :=
  { sections := [], active_section := none,
    background_pixmap := none, foreground_pixmap := none }

/-- The mutating collection operations of the Sections orchestrator. -/
inductive SecOp where
  | add (x y angle : ℚ)
  | activate (which : Nat)
  | increment (diff : Int)
  | removeActive
deriving DecidableEq

def runOp (op : SecOp) (st : SectionsState) : Option SectionsState :=
  match op with
  | SecOp.add x y a => Sections.addSection st x y a
  | SecOp.activate w => Sections.handleActiveSectionUpdate st w
  | SecOp.increment d => Sections.incrementActiveSection st d
  | SecOp.removeActive => Sections.removeActiveSection st

def runOps : List SecOp → SectionsState → Option SectionsState
  | [], st => some st
  | op :: rest, st => (runOp op st).bind (runOps rest)

/-! ### List helper lemmas for the collection invariants -/

/-- The boolean list that is true exactly at position p (the selected pattern
of a collection whose active section sits at position p). -/
def oneTrue : Nat → Nat → List Bool
  | 0, _ => []
  | n + 1, 0 => true :: List.replicate n false
  | n + 1, p + 1 => false :: oneTrue n p

theorem oneTrue_length : ∀ (n p : Nat), (oneTrue n p).length = n := by
  intro n
  induction n with
  | zero => intro p; rfl
  | succ m ih =>
    intro p
    cases p with
    | zero => simp [oneTrue]
    | succ q => simp [oneTrue, ih]

theorem set_oneTrue_false :
    ∀ (n p : Nat), p < n → (oneTrue n p).set p false = List.replicate n false := by
  intro n
  induction n with
  | zero => intro p hp; omega
  | succ m ih =>
    intro p hp
    cases p with
    | zero => simp [oneTrue, List.replicate_succ]
    | succ q =>
      simp only [oneTrue, List.replicate_succ, List.set]
      rw [ih q (by omega)]

theorem set_replicate_true :
    ∀ (n w : Nat), w < n → (List.replicate n false).set w true = oneTrue n w := by
  intro n
  induction n with
  | zero => intro w hw; omega
  | succ m ih =>
    intro w hw
    cases w with
    | zero => simp [oneTrue, List.replicate_succ]
    | succ q =>
      simp only [oneTrue, List.replicate_succ, List.set]
      rw [ih q (by omega)]

theorem oneTrue_concat_false :
    ∀ (n p : Nat), p < n → oneTrue n p ++ [false] = oneTrue (n + 1) p := by
  intro n
  induction n with
  | zero => intro p hp; omega
  | succ m ih =>
    intro p hp
    cases p with
    | zero =>
      simp only [oneTrue, List.cons_append]
      rw [← List.replicate_succ']
    | succ q =>
      simp only [oneTrue, List.cons_append]
      rw [ih q (by omega)]

theorem eraseIdx_oneTrue :
    ∀ (n p : Nat), p < n → (oneTrue n p).eraseIdx p = List.replicate (n - 1) false := by
  intro n
  induction n with
  | zero => intro p hp; omega
  | succ m ih =>
    intro p hp
    cases p with
    | zero => simp [oneTrue]
    | succ q =>
      simp only [oneTrue, List.eraseIdx_cons_succ, Nat.succ_sub_one]
      rw [ih q (by omega)]
      have hm : m = (m - 1) + 1 := by omega
      rw [hm, ← List.replicate_succ]
      simp

theorem filter_true_replicate_false :
    ∀ (n : Nat), (List.replicate n false).filter (fun b => b) = [] := by
  intro n
  induction n with
  | zero => rfl
  | succ m ih => simp [List.replicate_succ, List.filter_cons, ih]

theorem filter_true_oneTrue :
    ∀ (n p : Nat), p < n → ((oneTrue n p).filter (fun b => b)).length = 1 := by
  intro n
  induction n with
  | zero => intro p hp; omega
  | succ m ih =>
    intro p hp
    cases p with
    | zero => simp [oneTrue, List.filter_cons, filter_true_replicate_false]
    | succ q => simp [oneTrue, List.filter_cons, ih q (by omega)]

theorem length_filter_selected :
    ∀ (l : List SectionData),
      (l.filter (fun s => s.selected)).length =
        ((l.map (fun s => s.selected)).filter (fun b => b)).length := by
  intro l
  induction l with
  | nil => rfl
  | cons a t ih =>
    simp only [List.filter_cons, List.map_cons]
    cases ha : a.selected <;> simp [ha, ih]

theorem lt_length_of_get?_some {α : Type} {l : List α} {i : Nat} {x : α}
    (h : l.get? i = some x) : i < l.length := by
  by_contra hc
  rw [List.get?_eq_none.2 (by omega)] at h
  cases h

theorem set_get?_same {α : Type} :
    ∀ {l : List α} {i : Nat} {x : α}, l.get? i = some x → l.set i x = l := by
  intro l
  induction l with
  | nil => intro i x h; cases h
  | cons a t ih =>
    intro i x h
    cases i with
    | zero =>
      simp only [List.get?] at h
      injection h with h
      simp [h]
    | succ n =>
      simp only [List.get?] at h
      simp [List.set, ih h]

theorem eraseIdx_map {α β : Type} (f : α → β) :
    ∀ (l : List α) (i : Nat), (l.eraseIdx i).map f = (l.map f).eraseIdx i := by
  intro l
  induction l with
  | nil => intro i; simp [List.eraseIdx]
  | cons a t ih =>
    intro i
    cases i with
    | zero => simp
    | succ n => simp [List.eraseIdx_cons_succ, ih]

theorem renumber_length :
    ∀ (l : List SectionData) (k : Nat), (renumber l k).length = l.length := by
  intro l
  induction l with
  | nil => intro k; rfl
  | cons a t ih => intro k; simp [renumber, ih]

theorem map_number_renumber :
    ∀ (l : List SectionData) (k : Nat),
      (renumber l k).map (fun s => s.section_number) = List.range' k l.length := by
  intro l
  induction l with
  | nil => intro k; rfl
  | cons a t ih => intro k; simp [renumber, List.range'_succ, ih]

theorem map_selected_renumber :
    ∀ (l : List SectionData) (k : Nat),
      (renumber l k).map (fun s => s.selected) = l.map (fun s => s.selected) := by
  intro l
  induction l with
  | nil => intro k; rfl
  | cons a t ih => intro k; simp [renumber, ih]

theorem map_xyz_renumber :
    ∀ (l : List SectionData) (k : Nat),
      (renumber l k).map (fun s => (s.x_pos, s.y_pos, s.angle)) =
        l.map (fun s => (s.x_pos, s.y_pos, s.angle)) := by
  intro l
  induction l with
  | nil => intro k; rfl
  | cons a t ih => intro k; simp [renumber, ih]

theorem number_eq_of_numbered {l : List SectionData} {i : Nat} {s : SectionData}
    (hnum : l.map (fun s => s.section_number) = List.range l.length)
    (h : l.get? i = some s) : s.section_number = i := by
  have hi : i < l.length := lt_length_of_get?_some h
  have hmap := congrArg (fun ll => ll.get? i) hnum
  simp only [List.get?_map, h, Option.map_some, List.get?_range hi] at hmap
  injection hmap

theorem map_number_set_selected {l : List SectionData} {i : Nat} {x : SectionData}
    {b : Bool} (h : l.get? i = some x) :
    (l.set i { x with selected := b }).map (fun s => s.section_number) =
      l.map (fun s => s.section_number) := by
  rw [List.map_set]
  apply set_get?_same
  rw [List.get?_map, h]
  rfl

theorem map_xyz_set_selected {l : List SectionData} {i : Nat} {x : SectionData}
    {b : Bool} (h : l.get? i = some x) :
    (l.set i { x with selected := b }).map (fun s => (s.x_pos, s.y_pos, s.angle)) =
      l.map (fun s => (s.x_pos, s.y_pos, s.angle)) := by
  rw [List.map_set]
  apply set_get?_same
  rw [List.get?_map, h]
  rfl

/-! ### The collection invariant -/

/-- The reachable-state invariant of the Sections orchestrator: the section
numbers are exactly 0..count-1 in list order, and either no section exists
and none is active, or the active position is valid and the selected flags
are true exactly at it. -/
def goodState (st : SectionsState) : Prop :=
  st.sections.map (fun s => s.section_number) = List.range st.sections.length ∧
  ((st.active_section = none ∧ st.sections = []) ∨
   (∃ pos, st.active_section = some pos ∧ pos < st.sections.length ∧
     st.sections.map (fun s => s.selected) = oneTrue st.sections.length pos))

/-! ### Preservation of the invariant by every mutating operation -/

theorem hASU_none_eq {st : SectionsState} {w : Nat} {st' : SectionsState}
    (hact : st.active_section = none)
    (h : Sections.handleActiveSectionUpdate st w = some st') :
    ∃ nsec, st.sections.get? w = some nsec ∧
      st' = { st with
              sections := st.sections.set w { nsec with selected := true },
              active_section := some w } := by
  simp only [Sections.handleActiveSectionUpdate, hact] at h
  rcases hget : st.sections.get? w with _ | nsec
  · rw [hget] at h; cases h
  · rw [hget] at h
    injection h with h
    exact ⟨nsec, rfl, h.symm⟩

theorem hASU_preserves {st st' : SectionsState} {w : Nat}
    (hg : goodState st) (h : Sections.handleActiveSectionUpdate st w = some st') :
    goodState st' := by
  obtain ⟨hnum, hrest⟩ := hg
  rcases hrest with ⟨hact, hemp⟩ | ⟨pos, hact, hlt, hsel⟩
  · exfalso
    simp only [Sections.handleActiveSectionUpdate, hact, hemp, List.get?] at h
    exact Option.noConfusion h
  · have hget : st.sections.get? pos = some (st.sections.get ⟨pos, hlt⟩) :=
      List.get?_eq_get hlt
    have hnumeq : (st.sections.get ⟨pos, hlt⟩).section_number = pos :=
      number_eq_of_numbered hnum hget
    simp only [Sections.handleActiveSectionUpdate, hact, hget] at h
    by_cases hw : (st.sections.get ⟨pos, hlt⟩).section_number = w
    · rw [if_neg (not_not_intro hw)] at h
      injection h with h
      exact h ▸ ⟨hnum, Or.inr ⟨pos, hact, hlt, hsel⟩⟩
    · rw [if_pos hw] at h
      rcases hget2 : (st.sections.set pos
          { st.sections.get ⟨pos, hlt⟩ with selected := false }).get? w with _ | nsec
      · rw [hget2] at h; cases h
      · rw [hget2] at h
        injection h with h
        have hpw : pos ≠ w := fun hc => hw (hc ▸ hnumeq)
        have hget2' : st.sections.get? w = some nsec := by
          rw [← List.get?_set_ne _ _ hpw]; exact hget2
        have hwlt : w < st.sections.length := lt_length_of_get?_some hget2'
        have hnsec : nsec.section_number = w := number_eq_of_numbered hnum hget2'
        subst h
        constructor
        · simp only [List.length_set]
          rw [map_number_set_selected hget2, map_number_set_selected hget]
          exact hnum
        · right
          refine ⟨w, rfl, ?_, ?_⟩
          · simpa only [List.length_set] using hwlt
          · simp only [List.length_set, List.map_set]
            rw [hsel, set_oneTrue_false _ _ hlt]
            exact set_replicate_true _ _ hwlt

theorem addSection_preserves {st st' : SectionsState} {x y a : ℚ}
    (hg : goodState st) (h : Sections.addSection st x y a = some st') :
    goodState st' := by
  obtain ⟨hnum, hrest⟩ := hg
  rcases hrest with ⟨hact, hemp⟩ | ⟨pos, hact, hlt, hsel⟩
  · simp only [Sections.addSection, hact, hemp] at h
    obtain ⟨nsec, hget, heq⟩ := hASU_none_eq rfl h
    simp only [List.nil_append, List.get?] at hget
    injection hget with hget
    subst heq
    constructor
    · simp [← hget, hemp, List.range_succ]
    · right
      refine ⟨0, rfl, by simp [hemp], ?_⟩
      simp [← hget, hemp, oneTrue]
  · simp only [Sections.addSection, hact] at h
    injection h with h
    subst h
    constructor
    · simp only [List.map_append, List.length_append, List.map_cons, List.map_nil,
        List.length_cons, List.length_nil]
      rw [hnum]
      simp [List.range_succ]
    · right
      refine ⟨pos, rfl, ?_, ?_⟩
      · simp only [List.length_append, List.length_cons, List.length_nil]
        omega
      · simp only [List.map_append, List.length_append, List.map_cons, List.map_nil,
          List.length_cons, List.length_nil]
        rw [hsel]
        have := oneTrue_concat_false st.sections.length pos hlt
        simpa using this

theorem increment_preserves {st st' : SectionsState} {d : Int}
    (hg : goodState st) (h : Sections.incrementActiveSection st d = some st') :
    goodState st' := by
  rcases hact : st.active_section with _ | pos
  · simp only [Sections.incrementActiveSection, hact] at h
    injection h with h
    exact h ▸ hg
  · simp only [Sections.incrementActiveSection, hact] at h
    rcases hget : st.sections.get? pos with _ | sec
    · simp only [hget] at h
      exact Option.noConfusion h
    · simp only [hget] at h
      by_cases hlen : st.sections.length = 0
      · simp only [if_pos hlen] at h
        exact Option.noConfusion h
      · rw [if_neg hlen] at h
        exact hASU_preserves hg h

theorem remove_eq {st st' : SectionsState} {pos : Nat}
    (hact : st.active_section = some pos)
    (hnum : st.sections.map (fun s => s.section_number) = List.range st.sections.length)
    (hlt : pos < st.sections.length)
    (h : Sections.removeActiveSection st = some st') :
    st'.sections.length = st.sections.length - 1 ∧
    st'.sections.map (fun s => s.section_number) = List.range (st.sections.length - 1) ∧
    st'.sections.map (fun s => (s.x_pos, s.y_pos, s.angle)) =
      (st.sections.map (fun s => (s.x_pos, s.y_pos, s.angle))).eraseIdx pos ∧
    st'.active_section = (if 0 < pos then some (pos - 1)
      else if 1 < st.sections.length then some 0 else none) ∧
    (st.sections.map (fun s => s.selected) = oneTrue st.sections.length pos →
      st'.sections.map (fun s => s.selected) =
        oneTrue (st.sections.length - 1) (if 0 < pos then pos - 1 else 0)) ∧
    st'.background_pixmap = st.background_pixmap ∧
    st'.foreground_pixmap = st.foreground_pixmap := by
  have hget : st.sections.get? pos = some (st.sections.get ⟨pos, hlt⟩) :=
    List.get?_eq_get hlt
  have hnumeq : (st.sections.get ⟨pos, hlt⟩).section_number = pos :=
    number_eq_of_numbered hnum hget
  simp only [Sections.removeActiveSection, hact, hget, hnumeq, if_pos hlt] at h
  set rem := renumber (st.sections.eraseIdx pos) 0 with hrem
  have hlenrem : rem.length = st.sections.length - 1 := by
    rw [hrem, renumber_length, List.length_eraseIdx, if_pos hlt]
  have hnumrem : rem.map (fun s => s.section_number) =
      List.range (st.sections.length - 1) := by
    rw [hrem, map_number_renumber, List.length_eraseIdx, if_pos hlt,
      ← List.range_eq_range']
  have hxyzrem : rem.map (fun s => (s.x_pos, s.y_pos, s.angle)) =
      (st.sections.map (fun s => (s.x_pos, s.y_pos, s.angle))).eraseIdx pos := by
    rw [hrem, map_xyz_renumber, eraseIdx_map]
  have hselrem : st.sections.map (fun s => s.selected) = oneTrue st.sections.length pos →
      rem.map (fun s => s.selected) = List.replicate (st.sections.length - 1) false := by
    intro hs
    rw [hrem, map_selected_renumber, eraseIdx_map, hs, eraseIdx_oneTrue _ _ hlt]
  by_cases hpos0 : 0 < rem.length
  · rw [if_pos hpos0] at h
    have hidx : Sections.handleActiveSectionUpdate
        { st with sections := rem, active_section := none }
        (if 0 < pos then pos - 1 else 0) = some st' := by
      by_cases hp : 0 < pos
      · rw [if_pos hp]; rw [if_pos hp] at h; exact h
      · rw [if_neg hp]; rw [if_neg hp] at h; exact h
    have hidxlt : (if 0 < pos then pos - 1 else 0) < rem.length := by
      by_cases hp : 0 < pos <;> simp only [hp, if_true, if_false] <;> omega
    obtain ⟨nsec, hget2, heq⟩ := hASU_none_eq rfl hidx
    simp only at hget2
    have hnumrem2 : rem.map (fun s => s.section_number) = List.range rem.length := by
      rw [hlenrem]; exact hnumrem
    subst heq
    refine ⟨?_, ?_, ?_, ?_, ?_, rfl, rfl⟩
    · simp only [List.length_set]
      exact hlenrem
    · simp only
      rw [map_number_set_selected hget2]
      exact hnumrem
    · simp only
      rw [map_xyz_set_selected hget2]
      exact hxyzrem
    · simp only
      by_cases hp : 0 < pos
      · simp only [hp, if_true]
      · simp only [hp, if_false]
        rw [if_pos (by omega)]
    · intro hs
      simp only [List.length_set, List.map_set]
      rw [hselrem hs, hlenrem] at *
      exact set_replicate_true _ _ (by omega)
  · rw [if_neg hpos0] at h
    injection h with h
    subst h
    have hremnil : rem = [] := List.length_eq_zero.mp (by omega)
    have hlen1 : st.sections.length = 1 := by omega
    have hp0 : pos = 0 := by omega
    refine ⟨?_, ?_, ?_, ?_, ?_, rfl, rfl⟩
    · simp only
      exact hlenrem
    · simp only
      exact hnumrem
    · simp only
      exact hxyzrem
    · simp only [hp0, hlen1]
      norm_num
    · intro hs
      simp only [hremnil, List.map_nil, hlen1, hp0]
      rfl

theorem remove_preserves {st st' : SectionsState}
    (hg : goodState st) (h : Sections.removeActiveSection st = some st') :
    goodState st' := by
  obtain ⟨hnum, hrest⟩ := hg
  rcases hrest with ⟨hact, hemp⟩ | ⟨pos, hact, hlt, hsel⟩
  · simp only [Sections.removeActiveSection, hact] at h
    exact Option.noConfusion h
  · obtain ⟨hlen', hnum', hxyz', hact', hsel', hbg, hfg⟩ := remove_eq hact hnum hlt h
    have hselmap := hsel' hsel
    constructor
    · rw [hlen']
      exact hnum'
    · by_cases hz : st.sections.length - 1 = 0
      · left
        constructor
        · rw [hact', if_neg (by omega), if_neg (by omega)]
        · exact List.length_eq_zero.mp (by omega)
      · right
        refine ⟨if 0 < pos then pos - 1 else 0, ?_, ?_, ?_⟩
        · rw [hact']
          by_cases hp : 0 < pos
          · simp only [hp, if_true]
          · simp only [hp, if_false]
            rw [if_pos (by omega)]
        · rw [hlen']
          by_cases hp : 0 < pos <;> simp only [hp, if_true, if_false] <;> omega
        · rw [hlen']
          exact hselmap

theorem runOp_preserves {op : SecOp} {st st' : SectionsState}
    (hg : goodState st) (h : runOp op st = some st') : goodState st' := by
  cases op with
  | add x y a => exact addSection_preserves hg h
  | activate w => exact hASU_preserves hg h
  | increment d => exact increment_preserves hg h
  | removeActive => exact remove_preserves hg h

theorem initState_good : goodState Sections.initState :=
  ⟨rfl, Or.inl ⟨rfl, rfl⟩⟩

theorem runOps_preserves :
    ∀ (ops : List SecOp) (st st' : SectionsState),
      goodState st → runOps ops st = some st' → goodState st' := by
  intro ops
  induction ops with
  | nil =>
    intro st st' hg h
    injection h with h
    exact h ▸ hg
  | cons op rest ih =>
    intro st st' hg h
    simp only [runOps] at h
    rcases hop : runOp op st with _ | st1
    · simp only [hop, Option.bind] at h
      exact Option.noConfusion h
    · simp only [hop, Option.bind] at h
      exact ih st1 st' (runOp_preserves hg hop) h

/-- addSection always succeeds and appends the new section at position
len(self.sections), carrying the requested coordinates and the next number. -/
theorem addSection_adds (st : SectionsState) (x y a : ℚ) :
    ∃ st' sec', Sections.addSection st x y a = some st' ∧
      st'.sections.get? st.sections.length = some sec' ∧
      sec'.section_number = st.sections.length ∧
      sec'.x_pos = x ∧ sec'.y_pos = y ∧ sec'.angle = a := by
  rcases hact : st.active_section with _ | p
  · simp only [Sections.addSection, hact]
    by_cases hl : st.sections.length = 0
    · have hnil : st.sections = [] := List.length_eq_zero.mp hl
      rw [hnil]
      exact ⟨_, _, rfl, rfl, rfl, rfl, rfl, rfl⟩
    · rcases he : (st.sections ++
          [({ section_number := st.sections.length, x_pos := x, y_pos := y,
              angle := a, selected := false, checked := false } : SectionData)]).get? 0
          with _ | e
      · exfalso
        rw [List.get?_eq_none] at he
        simp only [List.length_append, List.length_cons, List.length_nil] at he
        omega
      · simp only [Sections.handleActiveSectionUpdate, he]
        refine ⟨_, { section_number := st.sections.length, x_pos := x, y_pos := y,
                     angle := a, selected := false, checked := false },
                rfl, ?_, rfl, rfl, rfl, rfl⟩
        rw [List.get?_set_ne _ _ (by omega : (0 : Nat) ≠ st.sections.length)]
        exact List.get?_concat_length _ _
  · simp only [Sections.addSection, hact]
    refine ⟨_, { section_number := st.sections.length, x_pos := x, y_pos := y,
                 angle := a, selected := false, checked := false },
            rfl, ?_, rfl, rfl, rfl, rfl⟩
    exact List.get?_concat_length _ _

theorem bgStep_unchecked {env : RenderEnv} {acc : Option Frame × ℚ}
    {sec : SectionData} (h : sec.checked = false) :
    Sections.bgStep env acc sec = acc := by
  simp [Sections.bgStep, h]

theorem foldl_bgStep_unchecked (env : RenderEnv) :
    ∀ (l : List SectionData) (acc : Option Frame × ℚ),
      (∀ sec ∈ l, sec.checked = false) →
      l.foldl (Sections.bgStep env) acc = acc := by
  intro l
  induction l with
  | nil => intro acc h; rfl
  | cons a t ih =>
    intro acc h
    rw [List.foldl_cons, bgStep_unchecked (h a (by simp))]
    exact ih acc (fun sec hs => h sec (by simp [hs]))

/-! ### Claim theorems -/

/-- Claim C2: after every sequence of collection operations executed from the
initial state (in particular every sequence of addSection and
removeActiveSection calls) that completes without a Python exception, the
section_number values of the sections are exactly 0..count-1 in list order,
with no duplicates or gaps. -/
theorem section_numbers_dense (ops : List SecOp) (st' : SectionsState)
    (h : runOps ops Sections.initState = some st') :
    st'.sections.map (fun s => s.section_number) = List.range st'.sections.length :=
  (runOps_preserves ops Sections.initState st' initState_good h).1

theorem section_numbers_dense_witness :
    (SectionsState.mk [SectionData.mk 0 7 8 0 true false] (some 0) none
        none).sections.map (fun s => s.section_number) =
      List.range (SectionsState.mk [SectionData.mk 0 7 8 0 true false] (some 0) none
        none).sections.length :=
  section_numbers_dense [SecOp.add 5 6 0, SecOp.add 7 8 0, SecOp.removeActive]
    (SectionsState.mk [SectionData.mk 0 7 8 0 true false] (some 0) none none) (by rfl)

/-- Claim C3: whenever the collection reached by a sequence of mutating
operations (addSection, handleActiveSectionUpdate, incrementActiveSection,
removeActiveSection) from the initial state is non-empty, exactly one Section
has selected = true. -/
theorem exactly_one_selected (ops : List SecOp) (st' : SectionsState)
    (h : runOps ops Sections.initState = some st') (hne : st'.sections ≠ []) :
    (st'.sections.filter (fun s => s.selected)).length = 1 := by
  obtain ⟨hnum, hrest⟩ := runOps_preserves ops Sections.initState st' initState_good h
  rcases hrest with ⟨hact, hemp⟩ | ⟨pos, hact, hlt, hsel⟩
  · exact absurd hemp hne
  · rw [length_filter_selected, hsel]
    exact filter_true_oneTrue _ _ hlt

theorem exactly_one_selected_witness :
    ((SectionsState.mk [SectionData.mk 0 1 2 0 false false,
        SectionData.mk 1 3 4 0 true false] (some 1) none none).sections.filter
      (fun s => s.selected)).length = 1 :=
  exactly_one_selected [SecOp.add 1 2 0, SecOp.add 3 4 0, SecOp.activate 1]
    (SectionsState.mk [SectionData.mk 0 1 2 0 false false,
      SectionData.mk 1 3 4 0 true false] (some 1) none none) (by rfl) (by simp)

/-- Claim C7: removeActiveSection (run from a state whose numbering is dense
and whose active position is valid) removes exactly the active section,
renumbers the remainder to 0..count-1, and reactivates: the new active index
is removed_index - 1 when the removed index was positive, else 0 when
sections remain, else there is no active section. -/
theorem removeActiveSection_renumbers (st st' : SectionsState) (pos : Nat)
    (hact : st.active_section = some pos)
    (hnum : st.sections.map (fun s => s.section_number) =
      List.range st.sections.length)
    (hlt : pos < st.sections.length)
    (h : Sections.removeActiveSection st = some st') :
    st'.sections.length = st.sections.length - 1 ∧
    st'.sections.map (fun s => s.section_number) =
      List.range (st.sections.length - 1) ∧
    st'.sections.map (fun s => (s.x_pos, s.y_pos, s.angle)) =
      (st.sections.map (fun s => (s.x_pos, s.y_pos, s.angle))).eraseIdx pos ∧
    st'.active_section = (if 0 < pos then some (pos - 1)
      else if 1 < st.sections.length then some 0 else none) := by
  obtain ⟨h1, h2, h3, h4, -, -, -⟩ := remove_eq hact hnum hlt h
  exact ⟨h1, h2, h3, h4⟩

theorem removeActiveSection_renumbers_witness :
    (SectionsState.mk [SectionData.mk 0 0 0 0 true false,
        SectionData.mk 1 2 0 0 false false] (some 0) none none).sections.length =
      (SectionsState.mk [SectionData.mk 0 0 0 0 false false,
        SectionData.mk 1 1 0 0 true false, SectionData.mk 2 2 0 0 false false]
        (some 1) none none).sections.length - 1 ∧
    (SectionsState.mk [SectionData.mk 0 0 0 0 true false,
        SectionData.mk 1 2 0 0 false false] (some 0) none none).sections.map
        (fun s => s.section_number) =
      List.range ((SectionsState.mk [SectionData.mk 0 0 0 0 false false,
        SectionData.mk 1 1 0 0 true false, SectionData.mk 2 2 0 0 false false]
        (some 1) none none).sections.length - 1) ∧
    (SectionsState.mk [SectionData.mk 0 0 0 0 true false,
        SectionData.mk 1 2 0 0 false false] (some 0) none none).sections.map
        (fun s => (s.x_pos, s.y_pos, s.angle)) =
      ((SectionsState.mk [SectionData.mk 0 0 0 0 false false,
        SectionData.mk 1 1 0 0 true false, SectionData.mk 2 2 0 0 false false]
        (some 1) none none).sections.map
        (fun s => (s.x_pos, s.y_pos, s.angle))).eraseIdx 1 ∧
    (SectionsState.mk [SectionData.mk 0 0 0 0 true false,
        SectionData.mk 1 2 0 0 false false] (some 0) none none).active_section =
      (if 0 < 1 then some (1 - 1)
       else if 1 < (SectionsState.mk [SectionData.mk 0 0 0 0 false false,
         SectionData.mk 1 1 0 0 true false, SectionData.mk 2 2 0 0 false false]
         (some 1) none none).sections.length then some 0 else none) :=
  removeActiveSection_renumbers
    (SectionsState.mk [SectionData.mk 0 0 0 0 false false,
      SectionData.mk 1 1 0 0 true false, SectionData.mk 2 2 0 0 false false]
      (some 1) none none)
    (SectionsState.mk [SectionData.mk 0 0 0 0 true false,
      SectionData.mk 1 2 0 0 false false] (some 0) none none)
    1 rfl (by rfl) (by norm_num) (by rfl)

/-- The render environment of the C1 scenario: the three sections sit at
x = 0, 1, 2; the renders at x = 0 and x = 2 succeed with one-pixel buffers
[6] and [0], the render at x = 1 yields no buffer. -/
def envC1 : RenderEnv :=
  { renderNumpy := fun x _ _ =>
      if x = 0 then some [6] else if x = 1 then none else some [0],
    renderPixmap := fun _ _ _ => [] }

/-- Three background-enabled sections, the first one active. -/
def stC1 : SectionsState :=
  { sections := [SectionData.mk 0 0 0 0 true true, SectionData.mk 1 1 0 0 false true,
      SectionData.mk 2 2 0 0 false true],
    active_section := some 0, background_pixmap := none, foreground_pixmap := none }

/-- Claim C1 (code bug): with three background-enabled sections whose middle
render fails, updateBackgroundPixmap divides the sum of the two succeeding
renders by 3, not 2: the failed render adds nothing to the sum but still
increments the count, so the composite is [(6+0)/3] = [2] instead of the
claimed pixel-wise average [(6+0)/2] = [3] of the two succeeding renders. -/
theorem failed_render_still_counted :
    (Sections.updateBackgroundPixmap envC1 stC1).background_pixmap = some [2] ∧
    specMean [[6], [0]] = some [3] ∧
    (Sections.updateBackgroundPixmap envC1 stC1).background_pixmap ≠
      specMean [[6], [0]] := by
  refine ⟨?_, ?_, ?_⟩
  · norm_num [Sections.updateBackgroundPixmap, Sections.bgStep, stC1, envC1,
      List.foldl, addFrame]
  · norm_num [specMean, addFrame]
  · norm_num [Sections.updateBackgroundPixmap, Sections.bgStep, stC1, envC1,
      List.foldl, addFrame, specMean]

/-- A concrete section for the C4 counterexample. -/
def exSection : SectionData := SectionData.mk 7 1 2 3 false false

/-- Claim C4 (counterexample): the written line of a section numbered 7 at
(1, 2) with angle 3 is section,7,1,2,3 — five comma-separated fields, not
the four-field section,<x_um>,<y_um>,<angle> form the claim states. -/
theorem saveToMosaicFile_not_three_fields :
    Section.saveToMosaicFileFields exSection ≠
      Section.serializeLineSpec exSection ∧
    Section.saveToMosaicFileFields exSection =
      [MosaicField.tag "section", MosaicField.num 7, MosaicField.num 1,
       MosaicField.num 2, MosaicField.num 3] := by
  constructor
  · simp [Section.saveToMosaicFileFields, Section.serializeLineSpec, exSection]
  · norm_num [Section.saveToMosaicFileFields, exSection]

/-- Claim C4 (amended): Section.saveToMosaicFile writes exactly the CRLF
terminated line section,<section_number>,<x_um>,<y_um>,<angle> — the tag
followed by four numeric fields, the first of them the section number; this
differs from the three-field serializeLine contract of the spec for every
section. -/
theorem saveToMosaicFile_four_fields (s : SectionData) :
    Section.saveToMosaicFileFields s =
      [MosaicField.tag "section", MosaicField.num (s.section_number : ℚ),
       MosaicField.num s.x_pos, MosaicField.num s.y_pos,
       MosaicField.num s.angle] ∧
    (Section.saveToMosaicFileFields s).length = 5 ∧
    Section.saveToMosaicFileFields s ≠ Section.serializeLineSpec s := by
  refine ⟨rfl, rfl, ?_⟩
  simp [Section.saveToMosaicFileFields, Section.serializeLineSpec]

/-- Claim C5: saving a section and handing the comma-split fields of the
written line to loadFromMosaicFileData is recognized (returns True) and adds
a section with the same x_um, y_um and angle (exactly, in the rational model
of floats). -/
theorem save_load_round_trip (st : SectionsState) (s : SectionData) :
    ∃ st' sec',
      Sections.loadFromMosaicFileData st (Section.saveToMosaicFileFields s) =
        some (true, st') ∧
      st'.sections.get? st.sections.length = some sec' ∧
      sec'.x_pos = s.x_pos ∧ sec'.y_pos = s.y_pos ∧ sec'.angle = s.angle := by
  obtain ⟨st', sec', hadd, hget, hnumv, hx, hy, ha⟩ :=
    addSection_adds st s.x_pos s.y_pos s.angle
  refine ⟨st', sec', ?_, hget, hx, hy, ha⟩
  simp only [Sections.loadFromMosaicFileData, Section.saveToMosaicFileFields,
    List.get?]
  rw [if_pos trivial, hadd]
  rfl

/-- Claim C6 (code bug): with an empty collection (the initial state), the
arrow keys, P, Delete, U and unknown keys are no-ops of handleKeyEvent, but
each of the nudge keys W, S, A, D, Q, E dereferences the absent active
section (active_section is False) and raises, for every render environment. -/
theorem handleKeyEvent_empty_collection (env : RenderEnv) :
    Sections.handleKeyEvent env Sections.initState Key.up =
      some Sections.initState ∧
    Sections.handleKeyEvent env Sections.initState Key.down =
      some Sections.initState ∧
    Sections.handleKeyEvent env Sections.initState Key.p =
      some Sections.initState ∧
    Sections.handleKeyEvent env Sections.initState Key.del =
      some Sections.initState ∧
    Sections.handleKeyEvent env Sections.initState Key.u =
      some Sections.initState ∧
    Sections.handleKeyEvent env Sections.initState Key.other =
      some Sections.initState ∧
    Sections.handleKeyEvent env Sections.initState Key.w = none ∧
    Sections.handleKeyEvent env Sections.initState Key.s = none ∧
    Sections.handleKeyEvent env Sections.initState Key.a = none ∧
    Sections.handleKeyEvent env Sections.initState Key.d = none ∧
    Sections.handleKeyEvent env Sections.initState Key.q = none ∧
    Sections.handleKeyEvent env Sections.initState Key.e = none :=
  ⟨rfl, rfl, rfl, rfl, rfl, rfl, rfl, rfl, rfl, rfl, rfl, rfl⟩

/-- Claim C8 (counterexample): decrementing the angle from -179 lands exactly
on -180, which lies outside the claimed open-below interval (-180, 180]. -/
theorem incrementAngle_reaches_minus180 :
    SectionControls.incrementAngle (-179) (-1) = -180 ∧
    ¬(-180 < SectionControls.incrementAngle (-179) (-1)) := by
  constructor
  · norm_num [SectionControls.incrementAngle, SectionSpinBox.setValue]
  · norm_num [SectionControls.incrementAngle, SectionSpinBox.setValue]

/-- Claim C8 (amended): incrementAngle wraps rather than clamps — a +1-step
increment from 179 gives 180 (in range), an increment from 180 wraps to
-179, a decrement from -180 wraps to 180 minus one step (179) — and for
every starting angle and direction the result stays within the closed
interval [-180, 180] (both endpoints are reachable). -/
theorem incrementAngle_wraps (a : ℚ) (d : Int) :
    SectionControls.incrementAngle 179 1 = 180 ∧
    SectionControls.incrementAngle (-180) (-1) = 179 ∧
    SectionControls.incrementAngle 180 1 = -179 ∧
    -180 ≤ SectionControls.incrementAngle a d ∧
    SectionControls.incrementAngle a d ≤ 180 := by
  refine ⟨?_, ?_, ?_, ?_, ?_⟩
  · norm_num [SectionControls.incrementAngle, SectionSpinBox.setValue]
  · norm_num [SectionControls.incrementAngle, SectionSpinBox.setValue]
  · norm_num [SectionControls.incrementAngle, SectionSpinBox.setValue]
  · simp only [SectionControls.incrementAngle, SectionSpinBox.setValue]
    split_ifs <;> exact le_max_left _ _
  · simp only [SectionControls.incrementAngle, SectionSpinBox.setValue]
    split_ifs <;> exact max_le (by norm_num) (min_le_right _ _)

/-- A render environment that always fails (its choice is irrelevant to the
C9 scenario: no render is ever requested). -/
def envNone : RenderEnv :=
  { renderNumpy := fun _ _ _ => none, renderPixmap := fun _ _ _ => [] }

/-- An empty collection whose view still holds a stale background pixmap. -/
def stStale : SectionsState :=
  { sections := [], active_section := none,
    background_pixmap := some [1], foreground_pixmap := none }

/-- Claim C9 (counterexample): on an empty collection — a state in which zero
sections qualify for the composite — updateBackgroundPixmap returns before
touching the view, so a previously set background pixmap stays in place
instead of being cleared. -/
theorem updateBackgroundPixmap_empty_keeps_stale :
    (Sections.updateBackgroundPixmap envNone stStale).background_pixmap =
      some [1] ∧
    (Sections.updateBackgroundPixmap envNone stStale).background_pixmap ≠
      none := by
  constructor <;> simp [Sections.updateBackgroundPixmap, stStale]

/-- Claim C9 (amended): updateBackgroundPixmap clears the background pixmap
whenever the collection is non-empty and no section is background-enabled;
on an empty collection it returns early and leaves the whole state, any
stale background pixmap included, unchanged. -/
theorem updateBackgroundPixmap_zero_checked (env : RenderEnv)
    (st : SectionsState) :
    (st.sections = [] → Sections.updateBackgroundPixmap env st = st) ∧
    (st.sections ≠ [] → (∀ sec ∈ st.sections, sec.checked = false) →
      (Sections.updateBackgroundPixmap env st).background_pixmap = none) := by
  constructor
  · intro hnil
    simp [Sections.updateBackgroundPixmap, hnil]
  · intro hne hall
    have hlen : ¬st.sections.length = 0 := by
      simpa [List.length_eq_zero] using hne
    simp only [Sections.updateBackgroundPixmap, if_neg hlen]
    rw [foldl_bgStep_unchecked env st.sections (none, 0) hall]

/-- One unchecked section with a stale background pixmap. -/
def stOneUnchecked : SectionsState :=
  { sections := [SectionData.mk 0 0 0 0 true false], active_section := some 0,
    background_pixmap := some [5], foreground_pixmap := none }

theorem updateBackgroundPixmap_zero_checked_witness :
    (Sections.updateBackgroundPixmap envNone stOneUnchecked).background_pixmap =
      none :=
  (updateBackgroundPixmap_zero_checked envNone stOneUnchecked).2
    (by simp [stOneUnchecked]) (by simp [stOneUnchecked])

/-- Claim C10: loadFromMosaicFileData never reads the second field of a
section line (the stored section number): any two field lists agreeing
everywhere the loader looks (fields 0, 2, 3, 4) load identically, and on a
recognized section line the added section is numbered by the collection's
count at the time of the call, not by anything stored in the file. -/
theorem load_ignores_stored_number (st : SectionsState)
    (d d' : List MosaicField)
    (h0 : d.get? 0 = d'.get? 0) (h2 : d.get? 2 = d'.get? 2)
    (h3 : d.get? 3 = d'.get? 3) (h4 : d.get? 4 = d'.get? 4) :
    Sections.loadFromMosaicFileData st d =
      Sections.loadFromMosaicFileData st d' ∧
    (∀ (t : String) (n1 : MosaicField) (x y a : ℚ) (rest : List MosaicField)
       (st'' : SectionsState),
      Sections.loadFromMosaicFileData st
          (MosaicField.tag t :: n1 :: MosaicField.num x :: MosaicField.num y ::
            MosaicField.num a :: rest) = some (true, st'') →
      ∃ sec', st''.sections.get? st.sections.length = some sec' ∧
        sec'.section_number = st.sections.length) := by
  constructor
  · simp only [Sections.loadFromMosaicFileData]
    rw [h0, h2, h3, h4]
  · intro t n1 x y a rest st'' hload
    simp only [Sections.loadFromMosaicFileData, List.get?] at hload
    by_cases htag : MosaicField.tag t = MosaicField.tag "section"
    · rw [if_pos htag] at hload
      obtain ⟨stA, secA, hadd, hget, hnumv, -, -, -⟩ := addSection_adds st x y a
      rw [hadd] at hload
      simp only [Option.map, Option.some.injEq, Prod.mk.injEq, true_and] at hload
      exact ⟨secA, hload ▸ hget, hnumv⟩
    · rw [if_neg htag] at hload
      simp only [Option.some.injEq, Prod.mk.injEq] at hload
      exact absurd hload.1 Bool.false_ne_true

theorem load_ignores_stored_number_witness :
    Sections.loadFromMosaicFileData Sections.initState
        [MosaicField.tag "section", MosaicField.num 1, MosaicField.num 2,
         MosaicField.num 3, MosaicField.num 4] =
      Sections.loadFromMosaicFileData Sections.initState
        [MosaicField.tag "section", MosaicField.num 99, MosaicField.num 2,
         MosaicField.num 3, MosaicField.num 4] :=
  (load_ignores_stored_number Sections.initState
    [MosaicField.tag "section", MosaicField.num 1, MosaicField.num 2,
     MosaicField.num 3, MosaicField.num 4]
    [MosaicField.tag "section", MosaicField.num 99, MosaicField.num 2,
     MosaicField.num 3, MosaicField.num 4] rfl rfl rfl rfl).1
